import Mathlib

/-!
Verification of the ear-clipping polygon-triangulation engine.

The development shallowly embeds the JavaScript sources:
* the circular-list ear-cutting draft (classes Vertex and CircularList,
  createDoublyLinkedList, isEar, isWithinTriangle, cross, getOrientation,
  isConvex, naiveEarCutting, optimizedEarCutting, triangulate) — namespace
  EarClip;
* the array-based list builder of the sibling drafts (vertices.map plus
  modular next and prev links) — namespace Draft;
* the index-based PolygonTriangulation class (isTriangleOrientedCCW,
  pointInTriangle, isEar, naiveTriangulation) — namespace PolyTri.

Conventions of the embedding:
* JavaScript numbers are modelled as integers (all fixture coordinates are
  small integers, on which the products and differences used by the
  predicates are exact);
* a point array [x, y] is a Pt; object identity of a point array is
  modelled by PtRef, a point value tagged with an allocation id, so that
  the JavaScript identity tests (=== and == between arrays) become
  decidable equality of PtRef;
* runtime faults are explicit: JsErr.invalidInput ("Needs at Least 3
  Vertices"), JsErr.degenerateGeometry ("Points provided are collinear"),
  JsErr.noEarFound ("No ear found"), JsErr.nullInput ("Input is Null"),
  and JsErr.typeError for a property access on undefined or null;
* loops that the source cannot bound are given a fuel parameter;
  JsErr.fuelExhausted marks the (modelled) divergence of such a loop and
  is never produced at the fuel values the drivers pass.
-/

/-- Runtime outcomes of the JavaScript sources: the three error kinds named
by the spec, the null-argument error of CircularList.delete, a TypeError
for a property read on undefined or null, and a marker for loops whose
source diverges (fuel exhaustion of the model). -/
inductive JsErr where
  | invalidInput
  | degenerateGeometry
  | noEarFound
  | nullInput
  | typeError
  | fuelExhausted
deriving DecidableEq, Repr

/-- A planar point, the value of a JavaScript [x, y] array (or {x, y}
object). -/
@[ext]
structure Pt where
  x : ℤ
  y : ℤ
deriving DecidableEq, Repr

/-- A point array together with its allocation identity: two PtRef are equal
exactly when the JavaScript === test on the underlying arrays is true. -/
structure PtRef where
  id : ℕ
  pt : Pt
deriving DecidableEq, Repr

/-- An output triangle: an ordered triple of copied point values (the
sources push coordinate copies, point.slice(), never live references). -/
structure Triangle where
  p1 : Pt
  p2 : Pt
  p3 : Pt
deriving DecidableEq, Repr

/-- Decidable equality of computation outcomes, so that concrete runs can
be checked by decide. -/
instance instDecEqExcept {ε α : Type} [DecidableEq ε] [DecidableEq α] :
    DecidableEq (Except ε α) := fun x y =>
  match x, y with
  | .ok a, .ok b =>
    if h : a = b then isTrue (by rw [h])
    else isFalse (fun hc => h (Except.ok.inj hc))
  | .error a, .error b =>
    if h : a = b then isTrue (by rw [h])
    else isFalse (fun hc => h (Except.error.inj hc))
  | .ok _, .error _ => isFalse (fun hc => Except.noConfusion hc)
  | .error _, .ok _ => isFalse (fun hc => Except.noConfusion hc)

namespace EarClip

/-- Source cross(v1, v2): cross product of two 2-vectors. -/
def cross (v1 v2 : ℤ × ℤ) : ℤ :=
  v1.1 * v2.2 - v1.2 * v2.1

/-- Source getOrientation(p1, p2, p3): sign of cross(p1 − p2, p3 − p2);
1 for CCW, −1 for CW, 0 for collinear. -/
def getOrientation (p1 p2 p3 : Pt) : ℤ :=
  let v1 : ℤ × ℤ := (p1.x - p2.x, p1.y - p2.y)
  let v2 : ℤ × ℤ := (p3.x - p2.x, p3.y - p2.y)
  let res := cross v1 v2
  if res > 0 then 1 else if res < 0 then -1 else 0

/-- Source isConvex(a, b, c): getOrientation(a, b, c) === 1. -/
def isConvex (a b c : Pt) : Bool :=
  getOrientation a b c = 1

/-- Source isWithinTriangle(point, a, b, c).  The JavaScript vertex test
point == a compares array identity; for a point whose coordinates equal a
vertex but whose array is distinct the source still returns true through
the two-zero orientation branch (two of o1, o2, o3 vanish and are equal),
so comparing coordinate values here is observationally equivalent and the
function needs no identity information. -/
def isWithinTriangle (point a b c : Pt) : Except JsErr Bool :=
  if getOrientation a b c = 0 then
    .error .degenerateGeometry
  else if point = a ∨ point = b ∨ point = c then
    .ok true
  else
    let o1 := getOrientation point a b
    let o2 := getOrientation point b c
    let o3 := getOrientation point c a
    if o1 = o2 ∧ o2 = o3 then
      .ok true
    else if o1 * o2 * o3 = 0 then
      .ok (decide (o1 = o2 ∨ o1 = o3 ∨ o2 = o3))
    else
      .ok false

/-- Condition stated by the spec for the in-triangle test after the vertex
check: the three edge orientations all have the same (nonzero) sign, or
exactly one is collinear (zero) and the other two match.  This definition
follows the words of the claim, to be compared against the source function
isWithinTriangle. -/
def specWithinCond (point a b c : Pt) : Prop :=
  let o1 := getOrientation point a b
  let o2 := getOrientation point b c
  let o3 := getOrientation point c a
  (o1 = o2 ∧ o2 = o3 ∧ o1 ≠ 0) ∨
  (o1 = 0 ∧ o2 ≠ 0 ∧ o3 ≠ 0 ∧ o2 = o3) ∨
  (o2 = 0 ∧ o1 ≠ 0 ∧ o3 ≠ 0 ∧ o1 = o3) ∨
  (o3 = 0 ∧ o1 ≠ 0 ∧ o2 ≠ 0 ∧ o1 = o2)

instance (point a b c : Pt) : Decidable (specWithinCond point a b c) := by
  unfold specWithinCond; exact inferInstance

/-- Helper: the let bindings of getOrientation reduced away. -/
lemma getOrientation_eq (p1 p2 p3 : Pt) :
    getOrientation p1 p2 p3 =
      if (p1.x - p2.x) * (p3.y - p2.y) - (p1.y - p2.y) * (p3.x - p2.x) > 0
      then 1
      else if (p1.x - p2.x) * (p3.y - p2.y) - (p1.y - p2.y) * (p3.x - p2.x) < 0
      then -1
      else 0 := rfl

/-- Helper: getOrientation only takes the values 0, 1 and −1. -/
lemma getOrientation_cases (p1 p2 p3 : Pt) :
    getOrientation p1 p2 p3 = 0 ∨ getOrientation p1 p2 p3 = 1 ∨
      getOrientation p1 p2 p3 = -1 := by
  rw [getOrientation_eq]
  split
  · exact Or.inr (Or.inl rfl)
  · split
    · exact Or.inr (Or.inr rfl)
    · exact Or.inl rfl

/-- Helper: getOrientation vanishes exactly when the underlying determinant
vanishes. -/
lemma getOrientation_eq_zero_iff (p1 p2 p3 : Pt) :
    getOrientation p1 p2 p3 = 0 ↔
      (p1.x - p2.x) * (p3.y - p2.y) - (p1.y - p2.y) * (p3.x - p2.x) = 0 := by
  rw [getOrientation_eq]
  split
  · constructor <;> intro hh <;> omega
  · split
    · constructor <;> intro hh <;> omega
    · constructor <;> intro hh <;> omega

/-- Scalar core of the collinearity-transfer argument: in the plane, if a
nonzero vector v is parallel to u and to w then u is parallel to w. -/
lemma cross_zero_trans (ux uy vx vy wx wy : ℤ)
    (h1 : ux * vy - uy * vx = 0) (h2 : vx * wy - vy * wx = 0)
    (hv : vx ≠ 0 ∨ vy ≠ 0) : ux * wy - uy * wx = 0 := by
  rcases hv with hvx | hvy
  · have key : vx * (ux * wy - uy * wx) =
        (ux * vy - uy * vx) * wx + (vx * wy - vy * wx) * ux := by ring
    rw [h1, h2] at key
    simp only [zero_mul, add_zero] at key
    rcases mul_eq_zero.mp key with h | h
    · exact absurd h hvx
    · exact h
  · have key : vy * (ux * wy - uy * wx) =
        (ux * vy - uy * vx) * wy + (vx * wy - vy * wx) * uy := by ring
    rw [h1, h2] at key
    simp only [zero_mul, add_zero] at key
    rcases mul_eq_zero.mp key with h | h
    · exact absurd h hvy
    · exact h

/-- Two distinct points determine their line: a nonequal pair of vanishing
orientations around b forces a, b, c collinear. -/
lemma orient_zero_ab_bc (point a b c : Pt)
    (h1 : getOrientation point a b = 0) (h2 : getOrientation point b c = 0)
    (hpb : point ≠ b) : getOrientation a b c = 0 := by
  rw [getOrientation_eq_zero_iff] at h1 h2 ⊢
  have hv : point.x - b.x ≠ 0 ∨ point.y - b.y ≠ 0 := by
    by_contra hcon
    push_neg at hcon
    exact hpb (Pt.ext (by omega) (by omega))
  refine cross_zero_trans (a.x - b.x) (a.y - b.y) (point.x - b.x)
    (point.y - b.y) (c.x - b.x) (c.y - b.y) ?_ (by linear_combination h2) hv
  linear_combination h1

/-- Vanishing orientations around a force a, b, c collinear. -/
lemma orient_zero_ab_ca (point a b c : Pt)
    (h1 : getOrientation point a b = 0) (h3 : getOrientation point c a = 0)
    (hpa : point ≠ a) : getOrientation a b c = 0 := by
  rw [getOrientation_eq_zero_iff] at h1 h3 ⊢
  have hv : point.x - a.x ≠ 0 ∨ point.y - a.y ≠ 0 := by
    by_contra hcon
    push_neg at hcon
    exact hpa (Pt.ext (by omega) (by omega))
  have key := cross_zero_trans (b.x - a.x) (b.y - a.y) (point.x - a.x)
    (point.y - a.y) (c.x - a.x) (c.y - a.y)
    (by linear_combination -h1) (by linear_combination -h3) hv
  linear_combination -key

/-- Vanishing orientations around c force a, b, c collinear. -/
lemma orient_zero_bc_ca (point a b c : Pt)
    (h2 : getOrientation point b c = 0) (h3 : getOrientation point c a = 0)
    (hpc : point ≠ c) : getOrientation a b c = 0 := by
  rw [getOrientation_eq_zero_iff] at h2 h3 ⊢
  have hv : point.x - c.x ≠ 0 ∨ point.y - c.y ≠ 0 := by
    by_contra hcon
    push_neg at hcon
    exact hpc (Pt.ext (by omega) (by omega))
  have key := cross_zero_trans (b.x - c.x) (b.y - c.y) (point.x - c.x)
    (point.y - c.y) (a.x - c.x) (a.y - c.y)
    (by linear_combination h2) (by linear_combination h3) hv
  linear_combination key

/-- At most one of the three edge orientations can vanish once the triangle
is nondegenerate and the query point is none of its vertices. -/
lemma at_most_one_zero (point a b c : Pt)
    (hdeg : getOrientation a b c ≠ 0)
    (hvert : ¬(point = a ∨ point = b ∨ point = c)) :
    ¬(getOrientation point a b = 0 ∧ getOrientation point b c = 0) ∧
    ¬(getOrientation point a b = 0 ∧ getOrientation point c a = 0) ∧
    ¬(getOrientation point b c = 0 ∧ getOrientation point c a = 0) := by
  push_neg at hvert
  obtain ⟨hpa, hpb, hpc⟩ := hvert
  refine ⟨fun ⟨h1, h2⟩ => hdeg (orient_zero_ab_bc point a b c h1 h2 hpb),
    fun ⟨h1, h3⟩ => hdeg (orient_zero_ab_ca point a b c h1 h3 hpa),
    fun ⟨h2, h3⟩ => hdeg (orient_zero_bc_ca point a b c h2 h3 hpc)⟩

/-- Propositional equivalence between the branch structure of the source
isWithinTriangle and the condition the spec states, given that orientations
are signs and that no two of them vanish simultaneously. -/
lemma code_cond_iff_spec_cond (o1 o2 o3 : ℤ)
    (w1 : o1 = 0 ∨ o1 = 1 ∨ o1 = -1) (w2 : o2 = 0 ∨ o2 = 1 ∨ o2 = -1)
    (w3 : o3 = 0 ∨ o3 = 1 ∨ o3 = -1)
    (hz12 : ¬(o1 = 0 ∧ o2 = 0)) (hz13 : ¬(o1 = 0 ∧ o3 = 0))
    (hz23 : ¬(o2 = 0 ∧ o3 = 0)) :
    ((o1 = o2 ∧ o2 = o3) ∨
      (o1 * o2 * o3 = 0 ∧ (o1 = o2 ∨ o1 = o3 ∨ o2 = o3))) ↔
    ((o1 = o2 ∧ o2 = o3 ∧ o1 ≠ 0) ∨
      (o1 = 0 ∧ o2 ≠ 0 ∧ o3 ≠ 0 ∧ o2 = o3) ∨
      (o2 = 0 ∧ o1 ≠ 0 ∧ o3 ≠ 0 ∧ o1 = o3) ∨
      (o3 = 0 ∧ o1 ≠ 0 ∧ o2 ≠ 0 ∧ o1 = o2)) := by
  rcases w1 with h1 | h1 | h1 <;> rcases w2 with h2 | h2 | h2 <;>
    rcases w3 with h3 | h3 | h3 <;> subst h1 <;> subst h2 <;> subst h3 <;>
    revert hz12 hz13 hz23 <;> decide

/-- Helper: once the triangle is nondegenerate, isWithinTriangle cannot
fail (the degeneracy guard is the only error site). -/
lemma isWithinTriangle_ok (point a b c : Pt)
    (hdeg : getOrientation a b c ≠ 0) :
    ∃ bv, isWithinTriangle point a b c = .ok bv := by
  unfold isWithinTriangle
  rw [if_neg hdeg]
  split
  · exact ⟨true, rfl⟩
  · dsimp only
    split
    · exact ⟨true, rfl⟩
    · split
      · exact ⟨_, rfl⟩
      · exact ⟨false, rfl⟩

/-- Helper: closed form of the non-vertex branch of isWithinTriangle. -/
lemma isWithinTriangle_eval (point a b c : Pt)
    (hdeg : getOrientation a b c ≠ 0)
    (hv : ¬(point = a ∨ point = b ∨ point = c)) :
    isWithinTriangle point a b c =
      .ok (decide ((getOrientation point a b = getOrientation point b c ∧
          getOrientation point b c = getOrientation point c a) ∨
        (getOrientation point a b * getOrientation point b c *
            getOrientation point c a = 0 ∧
          (getOrientation point a b = getOrientation point b c ∨
            getOrientation point a b = getOrientation point c a ∨
            getOrientation point b c = getOrientation point c a)))) := by
  unfold isWithinTriangle
  rw [if_neg hdeg, if_neg hv]
  dsimp only
  split
  · rename_i hc1
    simp [hc1]
  · rename_i hc1
    split
    · rename_i hp
      simp [hc1, hp]
    · rename_i hp
      simp [hc1, hp]

/-- Helper: specWithinCond with its let bindings reduced away. -/
lemma specWithinCond_iff (point a b c : Pt) :
    specWithinCond point a b c ↔
      ((getOrientation point a b = getOrientation point b c ∧
          getOrientation point b c = getOrientation point c a ∧
          getOrientation point a b ≠ 0) ∨
        (getOrientation point a b = 0 ∧ getOrientation point b c ≠ 0 ∧
          getOrientation point c a ≠ 0 ∧
          getOrientation point b c = getOrientation point c a) ∨
        (getOrientation point b c = 0 ∧ getOrientation point a b ≠ 0 ∧
          getOrientation point c a ≠ 0 ∧
          getOrientation point a b = getOrientation point c a) ∨
        (getOrientation point c a = 0 ∧ getOrientation point a b ≠ 0 ∧
          getOrientation point b c ≠ 0 ∧
          getOrientation point a b = getOrientation point b c)) :=
  Iff.rfl

/-- Class Vertex: one boundary node.  The point field holds the point array
(with its identity), next and prev are nullable references to nodes, and
isConvex and isEar are the classification flags (initialised false). -/
structure Vertex where
  point : PtRef
  next : Option ℕ
  prev : Option ℕ
  isConvex : Bool
  isEar : Bool
deriving DecidableEq, Repr

/-- The mutable object store: node references are indices into this list.
All CircularList instances of one driver run share it, exactly as the
JavaScript lists share the underlying Vertex objects. -/
abbrev Heap := List Vertex

/-- Class CircularList: a head reference (nullable) and a size counter.
The size is an integer, as in JavaScript, so that decrements below zero
are representable. -/
structure CircularList where
  head : Option ℕ
  size : ℤ
deriving DecidableEq, Repr

/-- Helper: read a node through a nullable reference; reading a property of
null or undefined is a TypeError, so a none reference (and, unreachably, a
dangling index) faults. -/
def readV (h : Heap) (r : Option ℕ) : Except JsErr Vertex :=
  match r with
  | none => .error .typeError
  | some n =>
    match h[n]? with
    | none => .error .typeError
    | some v => .ok v

/-- Method CircularList.insert(newNode, previous): link newNode after
previous.  A call with the previous argument missing (as every call site in
this source makes) passes undefined, so the non-empty branch faults on
previous.next. -/
def insert (h : Heap) (cl : CircularList) (newNode : ℕ)
    (previous : Option ℕ) : Except JsErr (Heap × CircularList) :=
  if cl.head = none then
    match h[newNode]? with
    | none => .error .typeError
    | some nd =>
      .ok (h.set newNode { nd with next := some newNode, prev := some newNode },
        { head := some newNode, size := cl.size + 1 })
  else
    match previous with
    | none => .error .typeError
    | some p =>
      match h[p]? with
      | none => .error .typeError
      | some pnode =>
        let nxt := pnode.next
        let h1 := h.set p { pnode with next := some newNode }
        match h1[newNode]? with
        | none => .error .typeError
        | some nnode =>
          let h2 := h1.set newNode { nnode with prev := some p, next := nxt }
          match nxt with
          | none => .error .typeError
          | some nid =>
            match h2[nid]? with
            | none => .error .typeError
            | some xnode =>
              .ok (h2.set nid { xnode with prev := some newNode },
                { cl with size := cl.size + 1 })

/-- Method CircularList.delete(node): unlink node.  Throws on a null
argument; the last-node branch empties the list; deleting the head advances
the head to node.next; otherwise only the two neighbours are re-linked. -/
def delete (h : Heap) (cl : CircularList) (node : Option ℕ) :
    Except JsErr (Heap × CircularList) :=
  match node with
  | none => .error .nullInput
  | some n =>
    if cl.size = 1 ∧ some n = cl.head then
      .ok (h, { head := none, size := 0 })
    else
      match h[n]? with
      | none => .error .typeError
      | some nd =>
        let cl1 : CircularList :=
          if some n = cl.head then { cl with head := nd.next } else cl
        match nd.prev with
        | none => .error .typeError
        | some p =>
          match h[p]? with
          | none => .error .typeError
          | some pnode =>
            let h1 := h.set p { pnode with next := nd.next }
            match nd.next with
            | none => .error .typeError
            | some x =>
              match h1[x]? with
              | none => .error .typeError
              | some xnode =>
                .ok (h1.set x { xnode with prev := nd.prev },
                  { cl1 with size := cl1.size - 1 })

/-- Loop body of createDoublyLinkedList: allocate a Vertex for each point
and insert it — with no second argument, so previous is undefined. -/
def createDLLLoop (h : Heap) (cl : CircularList) :
    List PtRef → Except JsErr (Heap × CircularList)
  | [] => .ok (h, cl)
  | p :: rest =>
    let nid := h.length
    let h1 := h ++ [⟨p, none, none, false, false⟩]
    match insert h1 cl nid none with
    | .error e => .error e
    | .ok (h2, cl2) => createDLLLoop h2 cl2 rest

/-- Source createDoublyLinkedList(points): reject fewer than 3 points, then
insert a new Vertex per point into a fresh CircularList. -/
def createDoublyLinkedList (points : List PtRef) :
    Except JsErr (Heap × CircularList) :=
  if points.length < 3 then .error .invalidInput
  else createDLLLoop [] ⟨none, 0⟩ points

/-- Loop of isEar over the candidate CircularList: follow head/next for
size steps, skipping candidates identical (===) to a triangle vertex and
rejecting as soon as one lies within the triangle. -/
def earScan (a b c : PtRef) (h : Heap) :
    Option ℕ → ℕ → Except JsErr Bool
  | _, 0 => .ok true
  | cur, k + 1 =>
    match readV h cur with
    | .error e => .error e
    | .ok nd =>
      if nd.point = a ∨ nd.point = b ∨ nd.point = c then
        earScan a b c h nd.next k
      else
        match isWithinTriangle nd.point.pt a.pt b.pt c.pt with
        | .error e => .error e
        | .ok true => .ok false
        | .ok false => earScan a b c h nd.next k

/-- Source isEar(a, b, c, otherPoints): a convex angle at b and no other
candidate point within the triangle.  The candidate collection is a
CircularList (possibly undefined: the naive driver passes only three
arguments). -/
def isEar (a b c : PtRef) (h : Heap) (otherPoints : Option CircularList) :
    Except JsErr Bool :=
  if ¬ isConvex a.pt b.pt c.pt then .ok false
  else
    match otherPoints with
    | none => .error .typeError
    | some cl => earScan a b c h cl.head cl.size.toNat

/-- Observation function: the sequence of point references a size-bounded
head/next walk of a CircularList yields, when every link on the walk is
live. -/
def traverse (h : Heap) : Option ℕ → ℕ → Option (List PtRef)
  | _, 0 => some []
  | none, _ + 1 => none
  | some nid, k + 1 =>
    match h[nid]? with
    | none => none
    | some nd => (traverse h nd.next k).map (nd.point :: ·)

/-- Pure rendering of the earScan loop on the traversed candidate list. -/
def scanList (a b c : PtRef) : List PtRef → Except JsErr Bool
  | [] => .ok true
  | p :: rest =>
    if p = a ∨ p = b ∨ p = c then scanList a b c rest
    else
      match isWithinTriangle p.pt a.pt b.pt c.pt with
      | .error e => .error e
      | .ok true => .ok false
      | .ok false => scanList a b c rest

/-- Helper: on a well-linked walk, earScan computes scanList of the
traversal. -/
lemma earScan_eq_scanList (a b c : PtRef) (h : Heap) :
    ∀ (k : ℕ) (cur : Option ℕ) (l : List PtRef),
      traverse h cur k = some l →
      earScan a b c h cur k = scanList a b c l := by
  intro k
  induction k with
  | zero =>
    intro cur l hl
    simp only [traverse, Option.some.injEq] at hl
    subst hl
    rfl
  | succ k ih =>
    intro cur l hl
    match cur with
    | none => simp [traverse] at hl
    | some nid =>
      simp only [traverse] at hl
      match hnd : h[nid]? with
      | none => rw [hnd] at hl; simp at hl
      | some nd =>
        rw [hnd] at hl
        simp only [Option.map_eq_some'] at hl
        obtain ⟨tl, htl, hcons⟩ := hl
        subst hcons
        simp only [earScan, readV, hnd, scanList]
        split
        · exact ih nd.next tl htl
        · split
          · rfl
          · rfl
          · exact ih nd.next tl htl

/-- Helper: the boolean convexity test unfolded. -/
lemma isConvex_eq_true_iff (a b c : Pt) :
    isConvex a b c = true ↔ getOrientation a b c = 1 := by
  simp [isConvex]

/-- Helper: a convex angle has nonzero orientation. -/
lemma isConvex_nondegenerate (a b c : Pt) (h : isConvex a b c = true) :
    getOrientation a b c ≠ 0 := by
  rw [isConvex_eq_true_iff] at h
  omega

/-- Helper: under a nondegenerate triangle the candidate scan never faults:
it returns ok true or ok false. -/
lemma scanList_ok_or (a b c : PtRef)
    (hdeg : getOrientation a.pt b.pt c.pt ≠ 0) :
    ∀ l : List PtRef,
      scanList a b c l = .ok true ∨ scanList a b c l = .ok false := by
  intro l
  induction l with
  | nil => exact Or.inl rfl
  | cons p rest ih =>
    simp only [scanList]
    split
    · exact ih
    · obtain ⟨bv, hbv⟩ := isWithinTriangle_ok p.pt a.pt b.pt c.pt hdeg
      rw [hbv]
      cases bv
      · exact ih
      · exact Or.inr rfl

/-- Helper: the scan rejects exactly when some candidate that is not a
triangle vertex lies within the triangle. -/
lemma scanList_false_iff (a b c : PtRef)
    (hdeg : getOrientation a.pt b.pt c.pt ≠ 0) :
    ∀ l : List PtRef,
      (scanList a b c l = .ok false ↔
        ∃ p ∈ l, ¬(p = a ∨ p = b ∨ p = c) ∧
          isWithinTriangle p.pt a.pt b.pt c.pt = .ok true) := by
  intro l
  induction l with
  | nil =>
    simp [scanList]
  | cons q rest ih =>
    simp only [scanList]
    split
    · rename_i hq
      rw [ih]
      constructor
      · rintro ⟨p, hmem, hcond⟩
        exact ⟨p, List.mem_cons_of_mem q hmem, hcond⟩
      · rintro ⟨p, hmem, hcond⟩
        rcases List.mem_cons.mp hmem with rfl | hmem2
        · exact absurd hq hcond.1
        · exact ⟨p, hmem2, hcond⟩
    · rename_i hq
      obtain ⟨bv, hbv⟩ := isWithinTriangle_ok q.pt a.pt b.pt c.pt hdeg
      rw [hbv]
      cases bv
      · rw [ih]
        constructor
        · rintro ⟨p, hmem, hcond⟩
          exact ⟨p, List.mem_cons_of_mem q hmem, hcond⟩
        · rintro ⟨p, hmem, hcond⟩
          rcases List.mem_cons.mp hmem with rfl | hmem2
          · rw [hbv] at hcond
            exact absurd (Except.ok.inj hcond.2) (by decide)
          · exact ⟨p, hmem2, hcond⟩
      · constructor
        · intro _
          exact ⟨q, List.mem_cons_self q rest, hq, hbv⟩
        · intro _
          rfl

/-- Helper: a successful optional lookup implies the index is in range. -/
lemma getElem?_some_lt {α : Type} {l : List α} {i : ℕ} {a : α}
    (h : l[i]? = some a) : i < l.length := by
  by_contra hc
  push_neg at hc
  rw [List.getElem?_eq_none hc] at h
  exact Option.noConfusion h

/-- Helper: rewriting a field of a Vertex to the value it already holds is
the identity. -/
lemma vertex_set_next_self (nd : Vertex) {x : Option ℕ} (hx : nd.next = x) :
    ({ nd with next := x } : Vertex) = nd := by
  cases nd
  simp_all

/-- Helper: rewriting the prev field of a Vertex to its current value is
the identity. -/
lemma vertex_set_prev_self (nd : Vertex) {p : Option ℕ} (hp : nd.prev = p) :
    ({ nd with prev := p } : Vertex) = nd := by
  cases nd
  simp_all

/-- Helper: the crash of part_001's list builder, uniformly in the input:
createDoublyLinkedList inserts every vertex with the previous argument
missing, so the second insertion dereferences undefined. -/
lemma createDoublyLinkedList_crash (points : List PtRef)
    (hlen : 3 ≤ points.length) :
    createDoublyLinkedList points = .error .typeError := by
  match points with
  | [] => simp at hlen
  | [a] => simp at hlen
  | [a, b] => simp at hlen
  | a :: b :: c :: rest =>
    have hguard : ¬ (a :: b :: c :: rest).length < 3 := by
      simp only [List.length_cons]
      omega
    unfold createDoublyLinkedList
    rw [if_neg hguard]
    rfl

/-- Helper: the rejection branch of part_001's list builder. -/
lemma createDoublyLinkedList_small (points : List PtRef)
    (hlen : points.length < 3) :
    createDoublyLinkedList points = .error .invalidInput := by
  unfold createDoublyLinkedList
  rw [if_pos hlen]

/-- Helper: read a node together with its reference; a none reference is a
TypeError, as in readV. -/
def readRef (h : Heap) (r : Option ℕ) : Except JsErr (ℕ × Vertex) :=
  match r with
  | none => .error .typeError
  | some n =>
    match h[n]? with
    | none => .error .typeError
    | some v => .ok (n, v)

/-- Main loop of naiveEarCutting.  The source tests isEar(prev, curr, next)
— with the candidate argument missing — at the head only, and on a negative
answer retries the very same head, so the loop cannot advance; the fuel
models this possible divergence.  (The loop is unreachable anyway: the list
builder faults first.) -/
def naiveLoop : ℕ → Heap → CircularList → List Triangle →
    Except JsErr (Heap × CircularList × List Triangle)
  | 0, _, _, _ => .error .fuelExhausted
  | fuel + 1, h, cl, tris =>
    if cl.size ≤ 3 then .ok (h, cl, tris)
    else
      match readV h cl.head with
      | .error e => .error e
      | .ok vnode =>
        match readV h vnode.prev with
        | .error e => .error e
        | .ok pnode =>
          match readV h vnode.next with
          | .error e => .error e
          | .ok nnode =>
            match isEar pnode.point vnode.point nnode.point h none with
            | .error e => .error e
            | .ok true =>
              match delete h cl cl.head with
              | .error e => .error e
              | .ok (h2, cl2) =>
                naiveLoop fuel h2 cl2
                  (tris ++ [⟨pnode.point.pt, vnode.point.pt,
                    nnode.point.pt⟩])
            | .ok false => naiveLoop fuel h cl tris

/-- Source naiveEarCutting(points): entry size check, list construction,
clipping loop, and the final three-vertex triangle. -/
def naiveEarCutting (points : List PtRef) : Except JsErr (List Triangle) :=
  if points.length < 3 then .error .invalidInput
  else
    match createDoublyLinkedList points with
    | .error e => .error e
    | .ok (h, cl) =>
      match naiveLoop (points.length + 1) h cl [] with
      | .error e => .error e
      | .ok (h2, cl2, tris) =>
        match readV h2 cl2.head with
        | .error e => .error e
        | .ok anode =>
          match readV h2 anode.next with
          | .error e => .error e
          | .ok bnode =>
            match readV h2 bnode.next with
            | .error e => .error e
            | .ok cnode =>
              .ok (tris ++ [⟨anode.point.pt, bnode.point.pt,
                cnode.point.pt⟩])

/-- Classification loop of optimizedEarCutting: walk the boundary size
times, set each node's isConvex flag and insert the node into the convex or
the concave CircularList — with the previous argument missing, so the
insertion self-links the first classified node (rewiring its shared
next/prev) and faults on the second.  The successor is re-read after the
insertion, as the source does. -/
def classLoop : ℕ → Option ℕ → Heap → CircularList → CircularList →
    Except JsErr (Heap × CircularList × CircularList)
  | 0, _, h, conv, conc => .ok (h, conv, conc)
  | k + 1, curr, h, conv, conc => do
    let (cid, cnode) ← readRef h curr
    let (_, pn) ← readRef h cnode.prev
    let (_, nn) ← readRef h cnode.next
    if isConvex pn.point.pt cnode.point.pt nn.point.pt then
      let h1 := h.set cid { cnode with isConvex := true }
      let (h2, conv2) ← insert h1 conv cid none
      let (_, cnode2) ← readRef h2 (some cid)
      classLoop k cnode2.next h2 conv2 conc
    else
      let h1 := h.set cid { cnode with isConvex := false }
      let (h2, conc2) ← insert h1 conc cid none
      let (_, cnode2) ← readRef h2 (some cid)
      classLoop k cnode2.next h2 conv conc2

/-- Initial ear-marking loop of optimizedEarCutting: for each node of the
convex list, isEar against the concave list. -/
def markEarsLoop : ℕ → Option ℕ → Heap → CircularList → Except JsErr Heap
  | 0, _, h, _ => .ok h
  | k + 1, curr, h, conc => do
    let (cid, cnode) ← readRef h curr
    let (_, pn) ← readRef h cnode.prev
    let (_, nn) ← readRef h cnode.next
    let b ← isEar pn.point cnode.point nn.point h (some conc)
    let h1 := h.set cid { cnode with isEar := b }
    let (_, cnode1) ← readRef h1 (some cid)
    markEarsLoop k cnode1.next h1 conc

/-- Reclassification block of optimizedEarCutting, applied to each
neighbour of a clipped ear (the source repeats this block verbatim for prev
and for next): recompute isConvex; a convex vertex is inserted into the
convex list only under the source's head-guard condition, a concave vertex
is always inserted into the concave list — in both cases with the previous
argument missing. -/
def reclassify (h : Heap) (conv conc : CircularList) (ref : Option ℕ) :
    Except JsErr (Heap × CircularList × CircularList) := do
  let (vid, vnode) ← readRef h ref
  let (_, pn) ← readRef h vnode.prev
  let (_, nn) ← readRef h vnode.next
  if isConvex pn.point.pt vnode.point.pt nn.point.pt then
    let h1 := h.set vid { vnode with isConvex := true }
    match conv.head with
    | none =>
      let r ← insert h1 conv vid none
      pure (r.1, r.2, conc)
    | some hd =>
      match h1[hd]? with
      | none => .error .typeError
      | some hdnode =>
        match h1[vid]? with
        | none => .error .typeError
        | some vnode1 =>
          if vnode1.prev = hdnode.prev then
            let r ← insert h1 conv vid none
            pure (r.1, r.2, conc)
          else
            pure (h1, conv, conc)
  else
    let h1 := h.set vid { vnode with isConvex := false }
    let r ← insert h1 conc vid none
    pure (r.1, conv, r.2)

/-- Clip step of the optimized driver: push the triangle, delete the ear
tip from the boundary and the convex list, reclassify both neighbours, and
recompute their isEar flags against the boundary list. -/
def optClip (h : Heap) (vcl conv conc : CircularList) (tris : List Triangle)
    (cid : ℕ) (cnode : Vertex) :
    Except JsErr (Heap × CircularList × CircularList × CircularList ×
      List Triangle) := do
  let (_, pn1) ← readRef h cnode.prev
  let (_, nn1) ← readRef h cnode.next
  let tris2 := tris ++ [⟨pn1.point.pt, cnode.point.pt, nn1.point.pt⟩]
  let (hA, vcl2) ← delete h vcl (some cid)
  let (hB, conv2) ← delete hA conv (some cid)
  let (_, cnodeB) ← readRef hB (some cid)
  let (hC, conv3, conc3) ← reclassify hB conv2 conc cnodeB.prev
  let (hD, conv4, conc4) ← reclassify hC conv3 conc3 cnodeB.next
  let (pid, pD) ← readRef hD cnodeB.prev
  let (_, ppD) ← readRef hD pD.prev
  let (_, pnD) ← readRef hD pD.next
  let be1 ← isEar ppD.point pD.point pnD.point hD (some vcl2)
  let hE := hD.set pid { pD with isEar := be1 }
  let (nid, nE) ← readRef hE cnodeB.next
  let (_, npE) ← readRef hE nE.prev
  let (_, nnE) ← readRef hE nE.next
  let be2 ← isEar npE.point nE.point nnE.point hE (some vcl2)
  let hF := hE.set nid { nE with isEar := be2 }
  pure (hF, vcl2, conv4, conc4, tris2)

/-- Inner scan of the optimized main loop: walk the convex list looking for
a node flagged isEar; clip the first one found (the source breaks there),
or report none after a full pass. -/
def optScan : ℕ → Option ℕ → Heap → CircularList → CircularList →
    CircularList → List Triangle →
    Except JsErr (Option (Heap × CircularList × CircularList ×
      CircularList × List Triangle))
  | 0, _, _, _, _, _, _ => .ok none
  | k + 1, curr, h, vcl, conv, conc, tris =>
    match readRef h curr with
    | .error e => .error e
    | .ok (cid, cnode) =>
      if cnode.isEar then
        (optClip h vcl conv conc tris cid cnode).map some
      else
        optScan k cnode.next h vcl conv conc tris

/-- Main while-loop of the optimized driver.  A pass that finds no flagged
ear leaves the state unchanged, so the source loops forever; the fuel
models that divergence. -/
def optMain : ℕ → Heap → CircularList → CircularList → CircularList →
    List Triangle → Except JsErr (Heap × CircularList × List Triangle)
  | 0, _, _, _, _, _ => .error .fuelExhausted
  | fuel + 1, h, vcl, conv, conc, tris =>
    if vcl.size ≤ 3 then .ok (h, vcl, tris)
    else
      match optScan conv.size.toNat conv.head h vcl conv conc tris with
      | .error e => .error e
      | .ok none => optMain fuel h vcl conv conc tris
      | .ok (some (h2, vcl2, conv2, conc2, tris2)) =>
        optMain fuel h2 vcl2 conv2 conc2 tris2

/-- Body of optimizedEarCutting after the boundary list exists: classify,
mark initial ears, run the main loop, and emit the final triangle. -/
def optimizedGo (h : Heap) (vcl : CircularList) :
    Except JsErr (List Triangle) := do
  let (h1, conv1, conc1) ← classLoop vcl.size.toNat vcl.head h
    ⟨none, 0⟩ ⟨none, 0⟩
  let h2 ← markEarsLoop conv1.size.toNat conv1.head h1 conc1
  let (h3, vcl3, tris) ← optMain (vcl.size.toNat + 1) h2 vcl conv1 conc1 []
  let (_, an) ← readRef h3 vcl3.head
  let (_, bn) ← readRef h3 an.next
  let (_, cn) ← readRef h3 bn.next
  pure (tris ++ [⟨an.point.pt, bn.point.pt, cn.point.pt⟩])

/-- Source optimizedEarCutting(points): entry size check, list
construction, then the convex/concave machinery. -/
def optimizedEarCutting (points : List PtRef) :
    Except JsErr (List Triangle) :=
  if points.length < 3 then .error .invalidInput
  else
    match createDoublyLinkedList points with
    | .error e => .error e
    | .ok (h, cl) => optimizedGo h cl

/-- Source triangulate(polygon, triangulationMethod): apply the selected
strategy to the polygon.  In the source the method parameter defaults to
naiveEarCutting; callers here always pass it explicitly. -/
def triangulate (polygon : List PtRef)
    (triangulationMethod : List PtRef → Except JsErr (List Triangle)) :
    Except JsErr (List Triangle) :=
  triangulationMethod polygon

end EarClip

namespace Draft

/-- Array-based createDoublyLinkedList of the sibling drafts (part_000 and
part_002): vertices = points.map(Vertex), then next/prev set by index
modulo the length.  The Vertex class is identical to part_001's. -/
def draftHeap (points : List PtRef) : EarClip.Heap :=
  (List.range points.length).map (fun i =>
    ⟨points.getD i ⟨0, ⟨0, 0⟩⟩, some ((i + 1) % points.length),
      some ((i + points.length - 1) % points.length), false, false⟩)

/-- The draft builder with its entry size check. -/
def createDoublyLinkedList (points : List PtRef) :
    Except JsErr EarClip.Heap :=
  if points.length < 3 then .error .invalidInput
  else .ok (draftHeap points)

/-- Observation: follow next links a given number of steps. -/
def followNext (h : EarClip.Heap) : ℕ → ℕ → Option ℕ
  | 0, i => some i
  | m + 1, i =>
    match h[i]? with
    | none => none
    | some nd =>
      match nd.next with
      | none => none
      | some j => followNext h m j

/-- Helper: the node stored at a valid index of the draft heap. -/
lemma draftHeap_get (points : List PtRef) (i : ℕ) (hi : i < points.length) :
    (draftHeap points)[i]? =
      some ⟨points.getD i ⟨0, ⟨0, 0⟩⟩, some ((i + 1) % points.length),
        some ((i + points.length - 1) % points.length), false, false⟩ := by
  unfold draftHeap
  rw [List.getElem?_map, List.getElem?_range hi]
  rfl

/-- Helper: from any valid index, m next steps in the draft heap land on
(i + m) mod length. -/
lemma followNext_draft (points : List PtRef) (hk : 0 < points.length) :
    ∀ (m i : ℕ), i < points.length →
      followNext (draftHeap points) m i =
        some ((i + m) % points.length) := by
  intro m
  induction m with
  | zero =>
    intro i hi
    simp [followNext, Nat.mod_eq_of_lt hi]
  | succ m ih =>
    intro i hi
    have h1 : (i + 1) % points.length < points.length := Nat.mod_lt _ hk
    unfold followNext
    rw [draftHeap_get points i hi]
    simp only
    rw [ih _ h1, Nat.mod_add_mod]
    congr 2
    omega

/-- Helper: a full next step from the successor's prev index returns to the
start. -/
lemma next_prev_mod (k i : ℕ) (hi : i < k) :
    ((i + 1) % k + k - 1) % k = i := by
  have hk : 0 < k := lt_of_le_of_lt (Nat.zero_le i) hi
  have h1 : (i + 1) % k + k - 1 = (i + 1) % k + (k - 1) := by omega
  rw [h1, Nat.mod_add_mod]
  have h2 : i + 1 + (k - 1) = i + k := by omega
  rw [h2, Nat.add_mod_right, Nat.mod_eq_of_lt hi]

/-- Helper: stepping next from the predecessor index returns to the
start. -/
lemma prev_next_mod (k i : ℕ) (hi : i < k) :
    ((i + k - 1) % k + 1) % k = i := by
  have hk : 0 < k := lt_of_le_of_lt (Nat.zero_le i) hi
  rw [Nat.mod_add_mod]
  have h2 : i + k - 1 + 1 = i + k := by omega
  rw [h2, Nat.add_mod_right, Nat.mod_eq_of_lt hi]

end Draft

/-- C4: isEar(prev, vertex, next, candidates) returns false when the angle
at vertex is not convex; returns false when some candidate distinct (by
array identity) from prev, vertex and next lies in the triangle per
pointInTriangle; and in all other cases returns true.  The candidate
collection is any CircularList whose head/size walk yields the list cands. -/
theorem c4_isEar_matches_spec (a b c : PtRef) (h : EarClip.Heap)
    (cl : EarClip.CircularList) (cands : List PtRef)
    (htrav : EarClip.traverse h cl.head cl.size.toNat = some cands) :
    (EarClip.isConvex a.pt b.pt c.pt = false →
      EarClip.isEar a b c h (some cl) = .ok false) ∧
    (EarClip.isConvex a.pt b.pt c.pt = true →
      (EarClip.isEar a b c h (some cl) = .ok false ↔
        ∃ p ∈ cands, ¬(p = a ∨ p = b ∨ p = c) ∧
          EarClip.isWithinTriangle p.pt a.pt b.pt c.pt = .ok true) ∧
      (EarClip.isEar a b c h (some cl) = .ok true ↔
        ¬ ∃ p ∈ cands, ¬(p = a ∨ p = b ∨ p = c) ∧
          EarClip.isWithinTriangle p.pt a.pt b.pt c.pt = .ok true)) := by
  constructor
  · intro hc
    simp [EarClip.isEar, hc]
  · intro hc
    have hdeg := EarClip.isConvex_nondegenerate a.pt b.pt c.pt hc
    have hrun : EarClip.isEar a b c h (some cl) =
        EarClip.scanList a b c cands := by
      unfold EarClip.isEar
      rw [hc, if_neg (by simp)]
      exact EarClip.earScan_eq_scanList a b c h cl.size.toNat cl.head
        cands htrav
    rw [hrun]
    have hfalse := EarClip.scanList_false_iff a b c hdeg cands
    refine ⟨hfalse, ?_⟩
    rcases EarClip.scanList_ok_or a b c hdeg cands with hcase | hcase
    · rw [hcase]
      simp only [true_iff]
      rw [hcase] at hfalse
      intro hex
      have := hfalse.mpr hex
      exact absurd (Except.ok.inj this) (by decide)
    · rw [hcase]
      constructor
      · intro hcon
        exact absurd (Except.ok.inj hcon) (by decide)
      · intro hnot
        exact absurd (hfalse.mp hcase) hnot

/-- Witness for C4: a concrete convex corner with one interfering reflex
candidate inside the triangle, held in a one-node circular list. -/
theorem c4_witness :
    EarClip.isEar ⟨0, ⟨4, 0⟩⟩ ⟨1, ⟨0, 0⟩⟩ ⟨2, ⟨0, 4⟩⟩
      [⟨⟨7, ⟨1, 1⟩⟩, some 0, some 0, false, false⟩]
      (some ⟨some 0, 1⟩) = .ok false :=
  (((c4_isEar_matches_spec ⟨0, ⟨4, 0⟩⟩ ⟨1, ⟨0, 0⟩⟩ ⟨2, ⟨0, 4⟩⟩
      [⟨⟨7, ⟨1, 1⟩⟩, some 0, some 0, false, false⟩]
      ⟨some 0, 1⟩ [⟨7, ⟨1, 1⟩⟩] (by rfl)).2 (by decide)).1).mpr
    ⟨⟨7, ⟨1, 1⟩⟩, by decide, by decide, by decide⟩

namespace PolyTri

/-- Default point for an out-of-range index: the drivers only index in
range, where this default is never consulted (JavaScript would yield
undefined and fault). -/
def defaultPt : Pt := ⟨0, 0⟩

/-- Class helper sign(p1, p2, p3) inside pointInTriangle. -/
def sign (p1 p2 p3 : Pt) : ℤ :=
  (p1.x - p3.x) * (p2.y - p3.y) - (p2.x - p3.x) * (p1.y - p3.y)

/-- Method pointInTriangle(p, a, b, c): the three half-plane signs must not
mix strict positives and strict negatives (boundary counts as inside).  No
degeneracy check is made here. -/
def pointInTriangle (p a b c : Pt) : Bool :=
  let d1 := sign p a b
  let d2 := sign p b c
  let d3 := sign p c a
  let hasNeg := decide (d1 < 0) || decide (d2 < 0) || decide (d3 < 0)
  let hasPos := decide (0 < d1) || decide (0 < d2) || decide (0 < d3)
  !(hasNeg && hasPos)

/-- Method isTriangleOrientedCCW(p1, p2, p3). -/
def isTriangleOrientedCCW (p1 p2 p3 : Pt) : Bool :=
  decide (0 < (p2.x - p1.x) * (p3.y - p1.y) - (p2.y - p1.y) * (p3.x - p1.x))

/-- Method isEar(i, remainingVertices), in the form the drivers call it
(remainingVertices always supplied): locate i in the remaining ring, take
its ring neighbours, require CCW orientation and no other remaining vertex
inside the candidate triangle.  The index arithmetic is done over ℤ as in
the source (indexOf yields −1 when i is absent, which the drivers never
trigger). -/
def isEar (points : List Pt) (rem : List ℕ) (i : ℕ) : Bool :=
  let len : ℤ := rem.length
  let idx : ℤ := if i ∈ rem then ((rem.indexOf i : ℕ) : ℤ) else -1
  let prev := rem.getD ((idx - 1 + len).emod len).toNat 0
  let next := rem.getD ((idx + 1).emod len).toNat 0
  if ! isTriangleOrientedCCW (points.getD prev defaultPt)
      (points.getD i defaultPt) (points.getD next defaultPt) then
    false
  else
    rem.all (fun j =>
      j == i || j == prev || j == next ||
      ! pointInTriangle (points.getD j defaultPt)
        (points.getD prev defaultPt) (points.getD i defaultPt)
        (points.getD next defaultPt))

/-- Triangle pushed by the drivers when clipping the ear at position i of
the remaining ring. -/
def clipTri (points : List Pt) (rem : List ℕ) (i : ℕ) : Triangle :=
  let len := rem.length
  let v := rem.getD i 0
  let prev := rem.getD ((i + len - 1) % len) 0
  let next := rem.getD ((i + 1) % len) 0
  ⟨points.getD prev defaultPt, points.getD v defaultPt,
    points.getD next defaultPt⟩

/-- While-loop of naiveTriangulation: scan the remaining ring for the first
ear, clip it, or throw "No ear found"; at three remaining vertices push the
final triangle.  Each pass either removes a vertex or throws, so the loop
runs at most length times; the fuel (passed as length by the wrapper) is
an upper bound on the iterations, never exhausted in a driver run. -/
def naiveLoopC (points : List Pt) : ℕ → List ℕ → Except JsErr (List Triangle)
  | 0, _ => .error .fuelExhausted
  | fuel + 1, rem =>
    if rem.length ≤ 3 then
      .ok [⟨points.getD (rem.getD 0 0) defaultPt,
        points.getD (rem.getD 1 0) defaultPt,
        points.getD (rem.getD 2 0) defaultPt⟩]
    else
      match rem.findIdx? (fun v => isEar points rem v) with
      | none => .error .noEarFound
      | some i =>
        match naiveLoopC points fuel (rem.eraseIdx i) with
        | .error e => .error e
        | .ok l => .ok (clipTri points rem i :: l)

/-- Method naiveTriangulation(): empty result below 3 points (the class
returns [] rather than throwing), else run the clipping loop over the full
index ring. -/
def naiveTriangulation (points : List Pt) : Except JsErr (List Triangle) :=
  if points.length < 3 then .ok []
  else naiveLoopC points points.length (List.range points.length)

/-- Helper: a found index is in range. -/
lemma findIdx?_some_lt {α : Type} (p : α → Bool) :
    ∀ (l : List α) (i : ℕ), l.findIdx? p = some i → i < l.length := by
  intro l
  induction l with
  | nil =>
    intro i h
    simp [List.findIdx?] at h
  | cons a t ih =>
    intro i h
    rw [List.findIdx?_cons, List.findIdx?_succ] at h
    split at h
    · simp only [Option.some.injEq] at h
      simp only [List.length_cons]
      omega
    · simp only [Option.map_eq_some'] at h
      obtain ⟨j, hj, hji⟩ := h
      have := ih j hj
      simp only [List.length_cons]
      omega

/-- Helper: a driver run of the clipping loop, given enough fuel, either
throws noEarFound or returns exactly (number of remaining vertices) − 2
triangles. -/
lemma naiveLoopC_dichotomy (points : List Pt) :
    ∀ (fuel : ℕ) (rem : List ℕ), rem.length ≤ fuel + 2 →
      3 ≤ rem.length →
      (naiveLoopC points fuel rem = .error .noEarFound ∨
        ∃ l, naiveLoopC points fuel rem = .ok l ∧
          l.length + 2 = rem.length) := by
  intro fuel
  induction fuel with
  | zero =>
    intro rem hfuel h3
    omega
  | succ fuel ih =>
    intro rem hfuel h3
    by_cases hle : rem.length ≤ 3
    · right
      refine ⟨[⟨points.getD (rem.getD 0 0) defaultPt,
        points.getD (rem.getD 1 0) defaultPt,
        points.getD (rem.getD 2 0) defaultPt⟩], ?_, ?_⟩
      · unfold naiveLoopC
        rw [if_pos hle]
      · simp only [List.length_cons, List.length_nil]
        omega
    · push_neg at hle
      match hfind : rem.findIdx? (fun v => isEar points rem v) with
      | none =>
        left
        unfold naiveLoopC
        rw [if_neg (by omega), hfind]
      | some i =>
        have hi := findIdx?_some_lt _ rem i hfind
        have herase : (rem.eraseIdx i).length = rem.length - 1 := by
          rw [List.length_eraseIdx]
          simp [hi]
        rcases ih (rem.eraseIdx i) (by omega) (by omega) with hcase | hcase
        · left
          unfold naiveLoopC
          rw [if_neg (by omega), hfind]
          dsimp only
          rw [hcase]
        · obtain ⟨l, hl, hlen⟩ := hcase
          right
          refine ⟨clipTri points rem i :: l, ?_, ?_⟩
          · unfold naiveLoopC
            rw [if_neg (by omega), hfind]
            dsimp only
            rw [hl]
          · simp only [List.length_cons]
            omega

end PolyTri

/-- Fixture: the clockwise square of the spec, as distinct point arrays. -/
def sqRefs : List PtRef :=
  [⟨0, ⟨0, 0⟩⟩, ⟨1, ⟨4, 0⟩⟩, ⟨2, ⟨4, 4⟩⟩, ⟨3, ⟨0, 4⟩⟩]

/-- Fixture: the collinear three-point input of the spec. -/
def collRefs : List PtRef := [⟨0, ⟨0, 0⟩⟩, ⟨1, ⟨1, 0⟩⟩, ⟨2, ⟨2, 0⟩⟩]

/-- Fixture: the square as plain point values for the index-based class. -/
def sqPts : List Pt := [⟨0, 0⟩, ⟨4, 0⟩, ⟨4, 4⟩, ⟨0, 4⟩]

/-- Fixture: the collinear input as plain point values. -/
def collPts : List Pt := [⟨0, 0⟩, ⟨1, 0⟩, ⟨2, 0⟩]

/-- Twice the absolute area of an output triangle (shoelace). -/
def triDoubledArea (t : Triangle) : ℤ :=
  |(t.p2.x - t.p1.x) * (t.p3.y - t.p1.y) -
    (t.p2.y - t.p1.y) * (t.p3.x - t.p1.x)|

/-- C2 (settled against PolygonTriangulation.naiveTriangulation, the
coherent naive driver): with more than 3 vertices remaining, a pass that
finds no ear throws NoEarFoundError, and a pass that finds one clips
exactly that ear, removing one vertex; consequently a whole run never
returns a partial result — it is either NoEarFoundError or a complete list
of n − 2 triangles (the loop is bounded by the vertex count, so it cannot
run forever). -/
theorem c2_naive_driver_progress_or_noEar (points : List Pt) :
    (∀ (rem : List ℕ) (fuel : ℕ), 3 < rem.length →
      (rem.findIdx? (fun v => PolyTri.isEar points rem v) = none →
        PolyTri.naiveLoopC points (fuel + 1) rem = .error .noEarFound) ∧
      (∀ i, rem.findIdx? (fun v => PolyTri.isEar points rem v) = some i →
        i < rem.length ∧ (rem.eraseIdx i).length + 1 = rem.length ∧
        PolyTri.naiveLoopC points (fuel + 1) rem =
          (PolyTri.naiveLoopC points fuel (rem.eraseIdx i)).map
            (List.cons (PolyTri.clipTri points rem i)))) ∧
    (3 ≤ points.length →
      (PolyTri.naiveTriangulation points = .error .noEarFound ∨
        ∃ l, PolyTri.naiveTriangulation points = .ok l ∧
          l.length + 2 = points.length)) := by
  constructor
  · intro rem fuel h3
    constructor
    · intro hnone
      unfold PolyTri.naiveLoopC
      rw [if_neg (by omega), hnone]
    · intro i hsome
      have hi := PolyTri.findIdx?_some_lt _ rem i hsome
      refine ⟨hi, ?_, ?_⟩
      · rw [List.length_eraseIdx]
        simp only [hi, if_pos]
        omega
      · cases hres : PolyTri.naiveLoopC points fuel (rem.eraseIdx i) with
        | error e =>
          unfold PolyTri.naiveLoopC
          rw [if_neg (by omega), hsome]
          dsimp only
          rw [hres]
          rfl
        | ok l =>
          unfold PolyTri.naiveLoopC
          rw [if_neg (by omega), hsome]
          dsimp only
          rw [hres]
          rfl
  · intro hlen
    unfold PolyTri.naiveTriangulation
    rw [if_neg (by omega)]
    have := PolyTri.naiveLoopC_dichotomy points points.length
      (List.range points.length) (by simp) (by simp [hlen])
    simpa using this

/-- Witness for C2 at the square fixture. -/
theorem c2_witness :
    3 ≤ sqPts.length ∧
    (PolyTri.naiveTriangulation sqPts = .error .noEarFound ∨
      ∃ l, PolyTri.naiveTriangulation sqPts = .ok l ∧
        l.length + 2 = sqPts.length) :=
  ⟨by decide, (c2_naive_driver_progress_or_noEar sqPts).2 (by decide)⟩

/-- C7: on the clockwise square, the cited draft driver naiveEarCutting
faults with a TypeError in list construction instead of producing the two
triangles; the coherent class driver naiveTriangulation does return
exactly 2 triangles whose total absolute area is 16 (doubled area 32). -/
theorem c7_square_fixture :
    EarClip.naiveEarCutting sqRefs = .error .typeError ∧
    PolyTri.naiveTriangulation sqPts =
      .ok [⟨⟨0, 4⟩, ⟨0, 0⟩, ⟨4, 0⟩⟩, ⟨⟨4, 0⟩, ⟨4, 4⟩, ⟨0, 4⟩⟩] ∧
    triDoubledArea ⟨⟨0, 4⟩, ⟨0, 0⟩, ⟨4, 0⟩⟩ +
      triDoubledArea ⟨⟨4, 0⟩, ⟨4, 4⟩, ⟨0, 4⟩⟩ = 32 :=
  ⟨by decide, by decide, by decide⟩

/-- C8: on the collinear three-point input, no variant raises
DegenerateGeometryError or InvalidInputError: the cited draft driver
faults with a TypeError during list construction, and the class driver
returns the single degenerate triangle without any error (the degeneracy
guard inside isWithinTriangle is unreachable from the drivers, which test
convexity first). -/
theorem c8_collinear_fixture :
    EarClip.naiveEarCutting collRefs = .error .typeError ∧
    PolyTri.naiveTriangulation collPts =
      .ok [⟨⟨0, 0⟩, ⟨1, 0⟩, ⟨2, 0⟩⟩] :=
  ⟨by decide, by decide⟩

/-- C1 (settled against the cited ear-cutting drivers): for every input of
at least 3 points, both naiveEarCutting and optimizedEarCutting fault with
a TypeError inside createDoublyLinkedList — insert is called without its
previous argument — so neither ever returns the n − 2 triangles the claim
describes. -/
theorem c1_both_drivers_crash (points : List PtRef)
    (hlen : 3 ≤ points.length) :
    EarClip.naiveEarCutting points = .error .typeError ∧
    EarClip.optimizedEarCutting points = .error .typeError := by
  constructor
  · unfold EarClip.naiveEarCutting
    rw [if_neg (by omega), EarClip.createDoublyLinkedList_crash points hlen]
  · unfold EarClip.optimizedEarCutting
    rw [if_neg (by omega), EarClip.createDoublyLinkedList_crash points hlen]

/-- Witness for C1 at the square fixture. -/
theorem c1_witness :
    3 ≤ sqRefs.length ∧
    (EarClip.naiveEarCutting sqRefs = .error .typeError ∧
      EarClip.optimizedEarCutting sqRefs = .error .typeError) :=
  ⟨by decide, c1_both_drivers_crash sqRefs (by decide)⟩

/-- C5: the optimized driver cannot maintain the convex/concave sets: on
the square it faults with a TypeError before any set exists (first
conjunct), and even when handed the correctly linked boundary heap of the
sibling drafts it faults during classification — the first one-argument
insert self-links the node, corrupting the shared boundary links, and the
second faults on the undefined previous argument (second conjunct). -/
theorem c5_optimized_set_bookkeeping_crashes :
    EarClip.optimizedEarCutting sqRefs = .error .typeError ∧
    EarClip.optimizedGo (Draft.draftHeap sqRefs) ⟨some 0, 4⟩ =
      .error .typeError :=
  ⟨by decide, by decide⟩

/-- C9: triangulate rejects fewer than 3 points with InvalidInputError for
both the naive and the optimized methods, before any other work. -/
theorem c9_small_input_invalid (points : List PtRef)
    (hlen : points.length < 3) :
    EarClip.triangulate points EarClip.naiveEarCutting =
      .error .invalidInput ∧
    EarClip.triangulate points EarClip.optimizedEarCutting =
      .error .invalidInput := by
  constructor
  · unfold EarClip.triangulate EarClip.naiveEarCutting
    rw [if_pos hlen]
  · unfold EarClip.triangulate EarClip.optimizedEarCutting
    rw [if_pos hlen]

/-- Witness for C9 at the two-point fixture. -/
theorem c9_witness :
    ([⟨0, ⟨0, 0⟩⟩, ⟨1, ⟨4, 0⟩⟩] : List PtRef).length < 3 ∧
    (EarClip.triangulate [⟨0, ⟨0, 0⟩⟩, ⟨1, ⟨4, 0⟩⟩]
        EarClip.naiveEarCutting = .error .invalidInput ∧
      EarClip.triangulate [⟨0, ⟨0, 0⟩⟩, ⟨1, ⟨4, 0⟩⟩]
        EarClip.optimizedEarCutting = .error .invalidInput) :=
  ⟨by decide, c9_small_input_invalid [⟨0, ⟨0, 0⟩⟩, ⟨1, ⟨4, 0⟩⟩] (by decide)⟩

/-- C6: part_001's createDoublyLinkedList rejects fewer than 3 points with
InvalidInputError but faults with a TypeError for every valid input (the
one-argument insert), instead of returning the claimed structure; the
array-based builder of the sibling drafts does satisfy the claim: one node
per point, size k, next circular with period k, and prev the exact inverse
of next. -/
theorem c6_builder (points : List PtRef) :
    (points.length < 3 →
      EarClip.createDoublyLinkedList points = .error .invalidInput ∧
      Draft.createDoublyLinkedList points = .error .invalidInput) ∧
    (3 ≤ points.length →
      EarClip.createDoublyLinkedList points = .error .typeError ∧
      Draft.createDoublyLinkedList points = .ok (Draft.draftHeap points) ∧
      (Draft.draftHeap points).length = points.length ∧
      (∀ i, i < points.length →
        Draft.followNext (Draft.draftHeap points) points.length i =
          some i) ∧
      (∀ i, i < points.length →
        ∃ nd, (Draft.draftHeap points)[i]? = some nd ∧
          (∃ j ndj, nd.next = some j ∧ j < points.length ∧
            (Draft.draftHeap points)[j]? = some ndj ∧
            ndj.prev = some i) ∧
          (∃ j2 ndj2, nd.prev = some j2 ∧ j2 < points.length ∧
            (Draft.draftHeap points)[j2]? = some ndj2 ∧
            ndj2.next = some i))) := by
  constructor
  · intro hlen
    refine ⟨EarClip.createDoublyLinkedList_small points hlen, ?_⟩
    unfold Draft.createDoublyLinkedList
    rw [if_pos hlen]
  · intro hlen
    have hk : 0 < points.length := by omega
    refine ⟨EarClip.createDoublyLinkedList_crash points hlen, ?_, ?_, ?_, ?_⟩
    · unfold Draft.createDoublyLinkedList
      rw [if_neg (by omega)]
    · unfold Draft.draftHeap
      simp
    · intro i hi
      rw [Draft.followNext_draft points hk points.length i hi]
      congr 1
      rw [Nat.add_mod_right, Nat.mod_eq_of_lt hi]
    · intro i hi
      have hnext : (i + 1) % points.length < points.length := Nat.mod_lt _ hk
      have hprev : (i + points.length - 1) % points.length < points.length :=
        Nat.mod_lt _ hk
      refine ⟨_, Draft.draftHeap_get points i hi, ?_, ?_⟩
      · refine ⟨(i + 1) % points.length, _, rfl, hnext,
          Draft.draftHeap_get points _ hnext, ?_⟩
        simp only [Option.some.injEq]
        exact Draft.next_prev_mod points.length i hi
      · refine ⟨(i + points.length - 1) % points.length, _, rfl, hprev,
          Draft.draftHeap_get points _ hprev, ?_⟩
        simp only [Option.some.injEq]
        exact Draft.prev_next_mod points.length i hi

/-- Witness for C6 at a concrete three-point input. -/
theorem c6_witness :
    3 ≤ ([⟨0, ⟨0, 0⟩⟩, ⟨1, ⟨4, 0⟩⟩, ⟨2, ⟨4, 4⟩⟩] : List PtRef).length ∧
    EarClip.createDoublyLinkedList [⟨0, ⟨0, 0⟩⟩, ⟨1, ⟨4, 0⟩⟩, ⟨2, ⟨4, 4⟩⟩] =
      .error .typeError :=
  ⟨by decide,
    ((c6_builder [⟨0, ⟨0, 0⟩⟩, ⟨1, ⟨4, 0⟩⟩, ⟨2, ⟨4, 4⟩⟩]).2 (by decide)).1⟩

/-- C10: CircularList.delete(node) on a list of size at least 2 leaves the
deleted node's own next and prev fields unchanged, still pointing at its
former neighbours; only the two neighbours' entries, the head and the size
are updated. -/
theorem c10_delete_preserves_deleted_links (h : EarClip.Heap)
    (cl : EarClip.CircularList) (n p x : ℕ) (nd pnode xnode : EarClip.Vertex)
    (hn : h[n]? = some nd) (hp : nd.prev = some p) (hx : nd.next = some x)
    (hpn : h[p]? = some pnode) (hxn : h[x]? = some xnode)
    (hsize : 2 ≤ cl.size) :
    ∃ h2 cl2, EarClip.delete h cl (some n) = .ok (h2, cl2) ∧
      h2[n]? = some nd ∧
      (∀ m : ℕ, m ≠ p → m ≠ x → h2[m]? = h[m]?) ∧
      cl2.size = cl.size - 1 ∧
      cl2.head = (if some n = cl.head then nd.next else cl.head) := by
  have hguard : ¬(cl.size = 1 ∧ some n = cl.head) := fun hcon => by omega
  have hplt : p < h.length := EarClip.getElem?_some_lt hpn
  have hxlt : x < h.length := EarClip.getElem?_some_lt hxn
  unfold EarClip.delete
  simp only [hn, hp, hx, hpn]
  rw [if_neg hguard]
  by_cases hxp : x = p
  · subst hxp
    have hxnp : xnode = pnode := by
      rw [hpn] at hxn
      exact (Option.some.inj hxn).symm
    rw [List.getElem?_set_eq_of_lt _ hplt]
    refine ⟨_, _, rfl, ?_, ?_, ?_, ?_⟩
    · by_cases hnp : n = x
      · have hpnd : pnode = nd := by
          rw [hnp, hpn] at hn
          exact Option.some.inj hn
        rw [hnp, List.set_set, List.getElem?_set_eq_of_lt _ hplt]
        simp only [Option.some.injEq]
        cases nd
        simp_all
      · rw [List.getElem?_set_ne (fun hc => hnp hc.symm),
          List.getElem?_set_ne (fun hc => hnp hc.symm), hn]
    · intro m hmp _
      rw [List.getElem?_set_ne (fun hc => hmp hc.symm),
        List.getElem?_set_ne (fun hc => hmp hc.symm)]
    · split <;> rfl
    · split <;> rfl
  · rw [List.getElem?_set_ne (fun hc => hxp hc.symm), hxn]
    refine ⟨_, _, rfl, ?_, ?_, ?_, ?_⟩
    · by_cases hnx : n = x
      · have hxnd : xnode = nd := by
          rw [hnx, hxn] at hn
          exact Option.some.inj hn
        have hsetlt : x < (h.set p { pnode with next := some x }).length := by
          simpa using hxlt
        rw [hnx, List.getElem?_set_eq_of_lt _ hsetlt]
        simp only [Option.some.injEq]
        cases nd
        simp_all
      · rw [List.getElem?_set_ne (fun hc => hnx hc.symm)]
        by_cases hnp : n = p
        · have hpnd : pnode = nd := by
            rw [hnp, hpn] at hn
            exact Option.some.inj hn
          rw [hnp, List.getElem?_set_eq_of_lt _ hplt]
          simp only [Option.some.injEq]
          cases nd
          simp_all
        · rw [List.getElem?_set_ne (fun hc => hnp hc.symm), hn]
    · intro m hmp hmx
      rw [List.getElem?_set_ne (fun hc => hmx hc.symm),
        List.getElem?_set_ne (fun hc => hmp hc.symm)]
    · split <;> rfl
    · split <;> rfl

/-- Witness for C10: deleting the middle node of a concrete three-node
circular list keeps its own links intact. -/
theorem c10_witness :
    ∃ h2 cl2,
      EarClip.delete
        [⟨⟨0, ⟨0, 0⟩⟩, some 1, some 2, false, false⟩,
         ⟨⟨1, ⟨4, 0⟩⟩, some 2, some 0, false, false⟩,
         ⟨⟨2, ⟨4, 4⟩⟩, some 0, some 1, false, false⟩]
        ⟨some 0, 3⟩ (some 1) = .ok (h2, cl2) ∧
      h2[1]? = some ⟨⟨1, ⟨4, 0⟩⟩, some 2, some 0, false, false⟩ ∧
      (∀ m : ℕ, m ≠ 0 → m ≠ 2 → h2[m]? =
        [⟨⟨0, ⟨0, 0⟩⟩, some 1, some 2, false, false⟩,
         ⟨⟨1, ⟨4, 0⟩⟩, some 2, some 0, false, false⟩,
         ⟨⟨2, ⟨4, 4⟩⟩, some 0, some 1, false, false⟩][m]?) ∧
      cl2.size = (⟨some 0, 3⟩ : EarClip.CircularList).size - 1 ∧
      cl2.head = (if some 1 = (⟨some 0, 3⟩ : EarClip.CircularList).head
        then some 2 else (⟨some 0, 3⟩ : EarClip.CircularList).head) :=
  c10_delete_preserves_deleted_links _ ⟨some 0, 3⟩ 1 0 2
    ⟨⟨1, ⟨4, 0⟩⟩, some 2, some 0, false, false⟩
    ⟨⟨0, ⟨0, 0⟩⟩, some 1, some 2, false, false⟩
    ⟨⟨2, ⟨4, 4⟩⟩, some 0, some 1, false, false⟩
    (by rfl) (by rfl) (by rfl) (by rfl) (by rfl) (by decide)

/-- C3: isWithinTriangle(point, a, b, c) fails with DegenerateGeometryError
exactly when orientation(a, b, c) is collinear; otherwise it returns true
when point coincides with a vertex of the triangle; otherwise it returns
true exactly when the three edge orientations all share a sign, or exactly
one is collinear and the other two match; in every remaining case it
returns false. -/
theorem c3_isWithinTriangle_matches_spec (point a b c : Pt) :
    (EarClip.isWithinTriangle point a b c = .error .degenerateGeometry ↔
      EarClip.getOrientation a b c = 0) ∧
    (EarClip.getOrientation a b c ≠ 0 →
      (point = a ∨ point = b ∨ point = c) →
      EarClip.isWithinTriangle point a b c = .ok true) ∧
    (EarClip.getOrientation a b c ≠ 0 →
      ¬(point = a ∨ point = b ∨ point = c) →
      (EarClip.isWithinTriangle point a b c = .ok true ↔
        EarClip.specWithinCond point a b c) ∧
      (EarClip.isWithinTriangle point a b c = .ok false ↔
        ¬ EarClip.specWithinCond point a b c)) := by
  refine ⟨?_, ?_, ?_⟩
  · by_cases hdeg : EarClip.getOrientation a b c = 0
    · unfold EarClip.isWithinTriangle
      rw [if_pos hdeg]
      simp [hdeg]
    · obtain ⟨bv, hbv⟩ := EarClip.isWithinTriangle_ok point a b c hdeg
      rw [hbv]
      simp [hdeg]
  · intro hdeg hv
    unfold EarClip.isWithinTriangle
    rw [if_neg hdeg, if_pos hv]
  · intro hdeg hv
    obtain ⟨hz12, hz13, hz23⟩ := EarClip.at_most_one_zero point a b c hdeg hv
    have key := EarClip.code_cond_iff_spec_cond
      (EarClip.getOrientation point a b) (EarClip.getOrientation point b c)
      (EarClip.getOrientation point c a)
      (EarClip.getOrientation_cases point a b)
      (EarClip.getOrientation_cases point b c)
      (EarClip.getOrientation_cases point c a) hz12 hz13 hz23
    rw [EarClip.isWithinTriangle_eval point a b c hdeg hv,
      EarClip.specWithinCond_iff]
    constructor
    · constructor
      · intro h
        simp only [Except.ok.injEq] at h
        exact key.mp (of_decide_eq_true h)
      · intro h
        rw [decide_eq_true (key.mpr h)]
    · constructor
      · intro h
        simp only [Except.ok.injEq] at h
        intro hs
        rw [decide_eq_true (key.mpr hs)] at h
        exact absurd h (by decide)
      · intro h
        have hd : decide ((EarClip.getOrientation point a b =
            EarClip.getOrientation point b c ∧
            EarClip.getOrientation point b c =
              EarClip.getOrientation point c a) ∨
          (EarClip.getOrientation point a b *
              EarClip.getOrientation point b c *
              EarClip.getOrientation point c a = 0 ∧
            (EarClip.getOrientation point a b =
                EarClip.getOrientation point b c ∨
              EarClip.getOrientation point a b =
                EarClip.getOrientation point c a ∨
              EarClip.getOrientation point b c =
                EarClip.getOrientation point c a))) = false := by
          rw [decide_eq_false_iff_not]
          intro hc
          exact h (key.mp hc)
        rw [hd]

/-- Witness for C3 at a concrete nondegenerate triangle and interior
point. -/
theorem c3_witness :
    EarClip.getOrientation ⟨4, 0⟩ ⟨0, 0⟩ ⟨0, 4⟩ ≠ 0 ∧
    ¬((⟨1, 1⟩ : Pt) = ⟨4, 0⟩ ∨ (⟨1, 1⟩ : Pt) = ⟨0, 0⟩ ∨
      (⟨1, 1⟩ : Pt) = ⟨0, 4⟩) ∧
    (EarClip.isWithinTriangle ⟨1, 1⟩ ⟨4, 0⟩ ⟨0, 0⟩ ⟨0, 4⟩ = .ok true ↔
      EarClip.specWithinCond ⟨1, 1⟩ ⟨4, 0⟩ ⟨0, 0⟩ ⟨0, 4⟩) :=
  ⟨by decide, by decide,
    ((c3_isWithinTriangle_matches_spec ⟨1, 1⟩ ⟨4, 0⟩ ⟨0, 0⟩ ⟨0, 4⟩).2.2
      (by decide) (by decide)).1⟩
